import Mathlib

/-!
Shallow embedding of `src/cube_processor.py` (class `CubeFile`): the Gaussian
cube-file parser `load_from` and the analyzer operations, together with proofs
about them.  Python floats are modelled by rationals (exact arithmetic); the
whitespace-tokenized input stream is modelled as a list of lines, each a list
of abstract tokens recording only how Python's numeric readers treat them.
-/

namespace CubeProcessor

/-- A whitespace-delimited input token.  `tInt n` stands for a token accepted by
Python's `int()` — and hence also by `float()` and numpy's text scanner — with
value `n`; `tFloat q` stands for a token accepted by `float()` and numpy's text
scanner but rejected by `int()` (such as `1.5` or `-1.234567E+02`); `tBad`
stands for non-numeric text, rejected by all numeric readers. -/
inductive Token where
  | tInt (n : ℤ)
  | tFloat (q : ℚ)
  | tBad
deriving DecidableEq

/-- Python's `int(tok)`: succeeds only on integer literals (`int("1.5")` raises). -/
def Token.toInt? : Token → Option ℤ
  | .tInt n => some n
  | _ => none

/-- Python's `float(tok)` (and one step of numpy's text scanner): succeeds on any
numeric literal. -/
def Token.toFloat? : Token → Option ℚ
  | .tInt n => some (n : ℚ)
  | .tFloat q => some q
  | .tBad => none

/-- Failure modes of `CubeFile.load_from`.  Python raises `ValueError` (bad numeric
literal) or a plain `AssertionError` (field counts, data-length mismatch) — both
collapsed to `structuralError` here — while the negative-atom-count assert carries
the distinguishing message `"DSET_IDs not (yet) supported"`, modelled as
`unsupportedDSET`. -/
inductive CubeError where
  | structuralError
  | unsupportedDSET
deriving DecidableEq

/-- Source lines 9–13. -/
structure Atom where
  atomic_number : ℤ
  nuclear_charge : ℚ
  position : List ℚ
deriving DecidableEq

/-- The fields of `CubeFile` set by `load_from` before the bulk data is read. -/
structure CubeHeader where
  comment1 : List Token
  comment2 : List Token
  origin : List ℚ
  data_points_per_grid_point : ℤ
  x_grid_points : ℤ
  x_axis : List ℚ
  y_grid_points : ℤ
  y_axis : List ℚ
  z_grid_points : ℤ
  z_axis : List ℚ
  atoms : List Atom
deriving DecidableEq

/-- The parsed cube file. -/
structure CubeFile extends CubeHeader where
  data : List ℚ
deriving DecidableEq

/-- `input_file.readline().split()`: past the end of the stream `readline`
returns `""`, which splits to the empty token list. -/
def readLine : List (List Token) → List Token × List (List Token)
  | [] => ([], [])
  | l :: ls => (l, ls)

/-- Convert one token with `int(...)`; failure is a `ValueError`. -/
def intTok (t : Token) : Except CubeError ℤ :=
  match t.toInt? with
  | some n => .ok n
  | none => .error .structuralError

/-- Convert one token with `float(...)`; failure is a `ValueError`. -/
def floatTok (t : Token) : Except CubeError ℚ :=
  match t.toFloat? with
  | some q => .ok q
  | none => .error .structuralError

/-- Source lines 31–41: `{NATOMS (int)} {ORIGIN (3x float)} {NVAL (int)}?`.
The source asserts `len(parts) in [4,5]`, converts `parts[0]` with `int`,
asserts it is non-negative (message `"DSET_IDs not (yet) supported"`), reads the
origin as three floats, and reads the optional NVAL with `int`, defaulting to 1.
Returns (atom count, origin, data points per grid point). -/
def parseGridDefLine : List Token → Except CubeError (ℤ × List ℚ × ℤ)
  | [t0, t1, t2, t3] => do
    let n ← intTok t0
    if n < 0 then throw .unsupportedDSET
    let o1 ← floatTok t1
    let o2 ← floatTok t2
    let o3 ← floatTok t3
    pure (n, [o1, o2, o3], 1)
  | [t0, t1, t2, t3, t4] => do
    let n ← intTok t0
    if n < 0 then throw .unsupportedDSET
    let o1 ← floatTok t1
    let o2 ← floatTok t2
    let o3 ← floatTok t3
    let nval ← intTok t4
    pure (n, [o1, o2, o3], nval)
  | _ => throw .structuralError

/-- Source lines 44–64, one axis line: `{N (int)} {AXIS (3x float)}`; the source
asserts exactly 4 fields. -/
def parseAxisLine : List Token → Except CubeError (ℤ × List ℚ)
  | [t0, t1, t2, t3] => do
    let n ← intTok t0
    let v1 ← floatTok t1
    let v2 ← floatTok t2
    let v3 ← floatTok t3
    pure (n, [v1, v2, v3])
  | _ => throw .structuralError

/-- Source lines 70–75, one atom line: `{Z (int)} {CHARGE (float)} {POS (3x float)}`;
the source asserts exactly 5 fields. -/
def parseAtomLine : List Token → Except CubeError Atom
  | [t0, t1, t2, t3, t4] => do
    let z ← intTok t0
    let q ← floatTok t1
    let p1 ← floatTok t2
    let p2 ← floatTok t3
    let p3 ← floatTok t4
    pure ⟨z, q, [p1, p2, p3]⟩
  | _ => throw .structuralError

/-- Source lines 68–75: read `nAtoms` atom lines in file order. -/
def parseAtoms : ℕ → List (List Token) → Except CubeError (List Atom × List (List Token))
  | 0, ls => pure ([], ls)
  | n + 1, ls => do
    let (line, rest) := readLine ls
    let a ← parseAtomLine line
    let (more, rest2) ← parseAtoms n rest
    pure (a :: more, rest2)

/-- Source lines 26–75: the two comment lines (read verbatim, not validated), the
grid-definition line, the three axis lines and the atom lines, returning the header
fields and the unconsumed lines.  `nAtoms = abs(int(parts[0]))` in the source; after
the non-negativity assert the `abs` is the identity, which `Int.toNat` reproduces. -/
def parseHeaderLines (input : List (List Token)) :
    Except CubeError (CubeHeader × List (List Token)) := do
  let (c1, r1) := readLine input
  let (c2, r2) := readLine r1
  let (gline, r3) := readLine r2
  let (nAtoms, origin, nval) ← parseGridDefLine gline
  let (xline, r4) := readLine r3
  let (nx, xv) ← parseAxisLine xline
  let (yline, r5) := readLine r4
  let (ny, yv) ← parseAxisLine yline
  let (zline, r6) := readLine r5
  let (nz, zv) ← parseAxisLine zline
  let (atomList, r7) ← parseAtoms nAtoms.toNat r6
  pure (⟨c1, c2, origin, nval, nx, xv, ny, yv, nz, zv, atomList⟩, r7)

/-- `np.fromstring(text, dtype=float, sep=' ')` over the whitespace-split remainder
of the stream: the scanner converts tokens to floats one by one and stops at the
first token it cannot read, returning the values read so far (numpy emits only a
DeprecationWarning for the unread remainder, not an error). -/
def fromstringFloats : List Token → List ℚ
  | [] => []
  | t :: ts =>
    match t.toFloat? with
    | some q => q :: fromstringFloats ts
    | none => []

/-- The product on the right-hand side of the data-length assert, source line 89. -/
def CubeHeader.expectedCount (h : CubeHeader) : ℤ :=
  h.x_grid_points * h.y_grid_points * h.z_grid_points * h.data_points_per_grid_point

/-- `CubeFile.load_from` (source lines 21–89): parse the header lines, read the
whole remainder of the stream (newlines are just whitespace, so the remaining
lines are joined) as the flat data sequence, and assert its length. -/
def load_from (input : List (List Token)) : Except CubeError CubeFile := do
  let (hdr, rest) ← parseHeaderLines input
  let data := fromstringFloats rest.flatten
  if (data.length : ℤ) = hdr.expectedCount then
    pure ⟨hdr, data⟩
  else
    throw .structuralError

/-- Squared Euclidean norm of an axis vector, so that
`np.linalg.norm v = Real.sqrt (normSq v)`. -/
def normSq (v : List ℚ) : ℚ := (v.map (fun x => x * x)).sum

namespace CubeFile

/-- `np.min(self.data)` (source lines 92–94; raises on an empty array, modelled
as `none`). -/
def min_value (g : CubeFile) : Option ℚ := g.data.min?

/-- `np.min(np.abs(self.data))` (source lines 96–98). -/
def abs_min_value (g : CubeFile) : Option ℚ := (g.data.map (fun x => |x|)).min?

/-- `np.max(self.data)` (source lines 100–102). -/
def max_value (g : CubeFile) : Option ℚ := g.data.max?

/-- `np.max(np.abs(self.data))` (source lines 104–106). -/
def abs_max_value (g : CubeFile) : Option ℚ := (g.data.map (fun x => |x|)).max?

/-- `np.sum(self.data)` (source lines 108–110). -/
def summed_data (g : CubeFile) : ℚ := g.data.sum

/-- Source lines 112–114: the body is `np.sum(self.data)`, identical to
`summed_data`, despite the docstring promising a sum of absolute values. -/
def abs_summed_data (g : CubeFile) : ℚ := g.data.sum

/-- `np.linalg.norm(x_axis) * np.linalg.norm(y_axis) * np.linalg.norm(z_axis)`
(source lines 116–119). -/
noncomputable def volume (g : CubeFile) : ℝ :=
  Real.sqrt (normSq g.x_axis) * Real.sqrt (normSq g.y_axis) * Real.sqrt (normSq g.z_axis)

/-- `self.summed_data() * self.volume()` (source lines 121–125). -/
noncomputable def integrate (g : CubeFile) : ℝ := (g.summed_data : ℝ) * g.volume

/-- The local `target_sum = self.summed_data() * coverage_percent / 100` of
source line 135. -/
def target_sum (g : CubeFile) (coverage_percent : ℚ) : ℚ :=
  g.summed_data * coverage_percent / 100

end CubeFile

/-- The loop of source lines 137–143: walk a list of values accumulating a running
sum, returning the first value at which the running sum reaches the target. -/
def accWalk (target : ℚ) : ℚ → List ℚ → Option ℚ
  | _, [] => none
  | acc, v :: rest =>
    if target ≤ acc + v then some v else accWalk target (acc + v) rest

/-- The order in which `for i in reversed(sorted_indices)` visits the data
values: `np.argsort` sorts ascending and the loop reverses it.  Ties carry equal
values, so which index `argsort` puts first is unobservable at the value level. -/
def sortedDescending (data : List ℚ) : List ℚ :=
  (List.insertionSort (· ≤ ·) data).reverse

/-- `CubeFile.isosurface_threshold_value` (source lines 127–145).  The loop runs
over the data in descending sorted order, and the fall-through returns
`data[sorted_indices[-1]]` — the last element of the ascending sort, which on an
empty array is an `IndexError`, modelled as `none`. -/
def CubeFile.isosurface_threshold_value (g : CubeFile) (coverage_percent : ℚ) :
    Option ℚ :=
  if 100 ≤ coverage_percent then some 0
  else
    match accWalk (g.target_sum coverage_percent) 0 (sortedDescending g.data) with
    | some v => some v
    | none => (List.insertionSort (· ≤ ·) g.data).getLast?

/-- The 1×1×2 grid input of spec §8: two comment lines, zero atoms, origin `(0,0,0)`,
`NVAL` absent (defaults to 1), unit-length axis vectors, data values `1.0 3.0`. -/
def exampleInput : List (List Token) :=
  [ [], [],
    [.tInt 0, .tInt 0, .tInt 0, .tInt 0],
    [.tInt 1, .tInt 1, .tInt 0, .tInt 0],
    [.tInt 1, .tInt 0, .tInt 1, .tInt 0],
    [.tInt 2, .tInt 0, .tInt 0, .tInt 1],
    [.tFloat 1, .tFloat 3] ]

/-- The grid that `load_from` produces from `exampleInput`. -/
def exampleGrid : CubeFile :=
  ⟨⟨[], [], [0, 0, 0], 1, 1, [1, 0, 0], 1, [0, 1, 0], 2, [0, 0, 1], []⟩, [1, 3]⟩

/-- The spec's `combined sum of the set of all grid points with value ≥ v`:
the sum of the data values that are at least `v`. -/
def CubeFile.coveredSum (g : CubeFile) (v : ℚ) : ℚ :=
  (g.data.filter (fun x => v ≤ x)).sum

/-- The property the spec asserts of the returned threshold for coverage below
100: it is the smallest data value whose super-level set carries at least the
target sum. -/
def IsSmallestCovering (g : CubeFile) (p v : ℚ) : Prop :=
  v ∈ g.data ∧ g.target_sum p ≤ g.coveredSum v ∧
    ∀ w ∈ g.data, g.target_sum p ≤ g.coveredSum w → v ≤ w

/-- The collected float values of a run of numeric tokens. -/
def tokenFloats (ts : List Token) : List ℚ := ts.filterMap Token.toFloat?

/-- A 1×1×2 grid input with data values `3.0 1.0`. -/
def mixedInput : List (List Token) :=
  [ [], [],
    [.tInt 0, .tInt 0, .tInt 0, .tInt 0],
    [.tInt 1, .tInt 1, .tInt 0, .tInt 0],
    [.tInt 1, .tInt 0, .tInt 1, .tInt 0],
    [.tInt 2, .tInt 0, .tInt 0, .tInt 1],
    [.tFloat 3, .tFloat 1] ]

/-- The grid that `load_from` produces from `mixedInput`. -/
def mixedGrid : CubeFile :=
  ⟨⟨[], [], [0, 0, 0], 1, 1, [1, 0, 0], 1, [0, 1, 0], 2, [0, 0, 1], []⟩, [3, 1]⟩

/-- A header that declares `NVAL = 0` (fifth token of the grid-definition line)
over a 1×1×1 grid, followed by no data at all, so that the declared point-count
product is 0. -/
def emptyDataInput : List (List Token) :=
  [ [], [],
    [.tInt 0, .tInt 0, .tInt 0, .tInt 0, .tInt 0],
    [.tInt 1, .tInt 1, .tInt 0, .tInt 0],
    [.tInt 1, .tInt 0, .tInt 1, .tInt 0],
    [.tInt 1, .tInt 0, .tInt 0, .tInt 1] ]

/-- The grid that `load_from` produces from `emptyDataInput`: its data sequence
is empty. -/
def emptyDataGrid : CubeFile :=
  ⟨⟨[], [], [0, 0, 0], 0, 1, [1, 0, 0], 1, [0, 1, 0], 1, [0, 0, 1], []⟩, []⟩

/-- A well-formed 1×1×1 header whose data section holds the expected single
numeric value followed by a non-numeric token. -/
def malformedTailInput : List (List Token) :=
  [ [], [],
    [.tInt 0, .tInt 0, .tInt 0, .tInt 0],
    [.tInt 1, .tInt 1, .tInt 0, .tInt 0],
    [.tInt 1, .tInt 0, .tInt 1, .tInt 0],
    [.tInt 1, .tInt 0, .tInt 0, .tInt 1],
    [.tFloat 1, .tBad] ]

/-- The grid that `load_from` produces from `malformedTailInput`: the malformed
token is silently dropped. -/
def malformedTailGrid : CubeFile :=
  ⟨⟨[], [], [0, 0, 0], 1, 1, [1, 0, 0], 1, [0, 1, 0], 1, [0, 0, 1], []⟩, [1]⟩

/-- A 1×1×2 grid input whose data values `-1.0 -3.0` sum to a negative total. -/
def negativeInput : List (List Token) :=
  [ [], [],
    [.tInt 0, .tInt 0, .tInt 0, .tInt 0],
    [.tInt 1, .tInt 1, .tInt 0, .tInt 0],
    [.tInt 1, .tInt 0, .tInt 1, .tInt 0],
    [.tInt 2, .tInt 0, .tInt 0, .tInt 1],
    [.tFloat (-1), .tFloat (-3)] ]

/-- The grid that `load_from` produces from `negativeInput`. -/
def negativeGrid : CubeFile :=
  ⟨⟨[], [], [0, 0, 0], 1, 1, [1, 0, 0], 1, [0, 1, 0], 2, [0, 0, 1], []⟩, [-1, -3]⟩

example : load_from exampleInput = .ok exampleGrid := rfl

example : exampleGrid.isosurface_threshold_value 50 = some 3 := by
  norm_num [CubeFile.isosurface_threshold_value, CubeFile.target_sum,
    CubeFile.summed_data, exampleGrid, sortedDescending, accWalk,
    List.insertionSort, List.orderedInsert]

/-! ### Characterisation of the accumulating walk -/

/-- The walk misses everywhere iff no running sum over a non-empty initial
segment reaches the target. -/
theorem accWalk_eq_none_iff (target : ℚ) (l : List ℚ) :
    ∀ acc, accWalk target acc l = none ↔
      ∀ k, k < l.length → acc + (l.take (k + 1)).sum < target := by
  induction l with
  | nil => intro acc; simp [accWalk]
  | cons v rest ih =>
    intro acc
    by_cases h : target ≤ acc + v
    · simp only [accWalk, if_pos h]
      constructor
      · intro hc; simp at hc
      · intro hall
        exfalso
        have h0 := hall 0 (by simp)
        rw [List.take_succ_cons, List.take_zero, List.sum_cons, List.sum_nil] at h0
        linarith
    · simp only [accWalk, if_neg h]
      rw [ih (acc + v)]
      push_neg at h
      constructor
      · intro hall k hk
        cases k with
        | zero =>
          rw [List.take_succ_cons, List.take_zero, List.sum_cons, List.sum_nil]
          linarith
        | succ j =>
          have hj : j < rest.length := by simpa using hk
          have hrec := hall j hj
          rw [List.take_succ_cons, List.sum_cons]
          linarith
      · intro hall j hj
        have hrec := hall (j + 1) (by simpa using hj)
        rw [List.take_succ_cons, List.sum_cons] at hrec
        linarith

/-- The walk returns `w` iff `w` sits at the first position whose running sum
reaches the target. -/
theorem accWalk_eq_some_iff (target : ℚ) (l : List ℚ) :
    ∀ acc w, accWalk target acc l = some w ↔
      ∃ k, ∃ hk : k < l.length, w = l.get ⟨k, hk⟩ ∧
        target ≤ acc + (l.take (k + 1)).sum ∧
        ∀ j, j < k → acc + (l.take (j + 1)).sum < target := by
  induction l with
  | nil => intro acc w; simp [accWalk]
  | cons v rest ih =>
    intro acc w
    by_cases h : target ≤ acc + v
    · simp only [accWalk, if_pos h]
      constructor
      · intro hw
        injection hw with hw
        refine ⟨0, by simp, hw.symm, ?_, ?_⟩
        · rw [List.take_succ_cons, List.take_zero, List.sum_cons, List.sum_nil]
          linarith
        · intro j hj; omega
      · rintro ⟨k, hk, rfl, hge, hlt⟩
        cases k with
        | zero => rfl
        | succ j =>
          exfalso
          have h0 := hlt 0 (Nat.succ_pos j)
          rw [List.take_succ_cons, List.take_zero, List.sum_cons, List.sum_nil] at h0
          linarith
    · simp only [accWalk, if_neg h]
      rw [ih (acc + v) w]
      push_neg at h
      constructor
      · rintro ⟨k, hk, rfl, hge, hlt⟩
        refine ⟨k + 1, by simpa using hk, rfl, ?_, ?_⟩
        · rw [List.take_succ_cons, List.sum_cons]
          linarith
        · intro j hj
          cases j with
          | zero =>
            rw [List.take_succ_cons, List.take_zero, List.sum_cons, List.sum_nil]
            linarith
          | succ i =>
            have hrec := hlt i (by omega)
            rw [List.take_succ_cons, List.sum_cons]
            linarith
      · rintro ⟨k, hk, rfl, hge, hlt⟩
        cases k with
        | zero =>
          exfalso
          rw [List.take_succ_cons, List.take_zero, List.sum_cons, List.sum_nil] at hge
          linarith
        | succ j =>
          refine ⟨j, by simpa using hk, rfl, ?_, ?_⟩
          · rw [List.take_succ_cons, List.sum_cons] at hge
            linarith
          · intro i hi
            have hrec := hlt (i + 1) (by omega)
            rw [List.take_succ_cons, List.sum_cons] at hrec
            linarith

/-- Whatever the walk returns is one of the walked values. -/
theorem accWalk_mem (target : ℚ) (l : List ℚ) :
    ∀ acc w, accWalk target acc l = some w → w ∈ l := by
  induction l with
  | nil => intro acc w hw; simp [accWalk] at hw
  | cons v rest ih =>
    intro acc w hw
    by_cases h : target ≤ acc + v
    · simp only [accWalk, if_pos h] at hw
      injection hw with hw
      simp [hw]
    · simp only [accWalk, if_neg h] at hw
      exact List.mem_cons_of_mem v (ih (acc + v) w hw)

/-- Starting below a target that all-negative values can only move away from,
the walk never hits. -/
theorem accWalk_none_of_neg (target : ℚ) (l : List ℚ) :
    ∀ acc, acc < target → (∀ x ∈ l, x < 0) → accWalk target acc l = none := by
  induction l with
  | nil => intro acc _ _; rfl
  | cons v rest ih =>
    intro acc hacc hneg
    have hv : v < 0 := hneg v (List.mem_cons_self v rest)
    rw [accWalk, if_neg (by linarith)]
    exact ih (acc + v) (by linarith) (fun x hx => hneg x (List.mem_cons_of_mem v hx))

/-! ### The descending sort -/

theorem sortedDescending_perm (l : List ℚ) : (sortedDescending l).Perm l :=
  ((List.insertionSort (· ≤ ·) l).reverse_perm).trans (List.perm_insertionSort _ l)

theorem sortedDescending_sorted (l : List ℚ) :
    List.Sorted (· ≥ ·) (sortedDescending l) := by
  rw [sortedDescending, List.Sorted, List.pairwise_reverse]
  exact (List.sorted_insertionSort (· ≤ ·) l).imp (fun hab => ge_iff_le.mpr hab)

theorem sortedDescending_sum (l : List ℚ) : (sortedDescending l).sum = l.sum :=
  (sortedDescending_perm l).sum_eq

theorem sortedDescending_length (l : List ℚ) :
    (sortedDescending l).length = l.length :=
  (sortedDescending_perm l).length_eq

/-- The fall-through value `data[sorted_indices[-1]]` of source line 145 is the
head of the descending order. -/
theorem getLast_insertionSort_eq_head (l : List ℚ) :
    (List.insertionSort (· ≤ ·) l).getLast? = (sortedDescending l).head? := by
  rw [sortedDescending, List.head?_reverse]

/-- `max?` on rationals characterised as the greatest element. -/
theorem rat_max?_eq_some_iff {l : List ℚ} {a : ℚ} :
    l.max? = some a ↔ a ∈ l ∧ ∀ b ∈ l, b ≤ a := by
  have hanti : Std.Antisymm ((· : ℚ) ≤ ·) := ⟨fun h₁ h₂ => le_antisymm h₁ h₂⟩
  exact List.max?_eq_some_iff (fun a => le_refl a) (fun a b => max_choice a b)
    (fun a b c => max_le_iff)

/-- The head of the descending order is the maximum of the data. -/
theorem sortedDescending_head_max {l : List ℚ} {h : ℚ} {tl : List ℚ}
    (he : sortedDescending l = h :: tl) : l.max? = some h := by
  rw [rat_max?_eq_some_iff]
  have hperm := sortedDescending_perm l
  constructor
  · exact hperm.subset (he ▸ List.mem_cons_self h tl)
  · intro b hb
    have hb2 : b ∈ h :: tl := he ▸ hperm.symm.subset hb
    rcases List.mem_cons.mp hb2 with rfl | hmem
    · exact le_refl b
    · have hs := sortedDescending_sorted l
      rw [he] at hs
      exact List.rel_of_sorted_cons hs b hmem

/-! ### Unfolding the threshold computation -/

theorem mem_of_head?_eq {l : List ℚ} {v : ℚ} (h : l.head? = some v) : v ∈ l := by
  cases l with
  | nil => simp at h
  | cons a tl =>
    simp only [List.head?_cons, Option.some.injEq] at h
    simp [h]

/-- Below 100% coverage, a hit of the walk is the returned threshold. -/
theorem isosurface_eq_of_walk_some {g : CubeFile} {p v : ℚ} (hp : p < 100)
    (hw : accWalk (g.target_sum p) 0 (sortedDescending g.data) = some v) :
    g.isosurface_threshold_value p = some v := by
  rw [CubeFile.isosurface_threshold_value, if_neg (not_le.mpr hp), hw]

/-- Below 100% coverage, a miss of the walk falls through to the head of the
descending order (the largest value). -/
theorem isosurface_eq_of_walk_none {g : CubeFile} {p : ℚ} (hp : p < 100)
    (hw : accWalk (g.target_sum p) 0 (sortedDescending g.data) = none) :
    g.isosurface_threshold_value p = (sortedDescending g.data).head? := by
  rw [CubeFile.isosurface_threshold_value, if_neg (not_le.mpr hp), hw,
    getLast_insertionSort_eq_head]

/-- Below 100% coverage, a returned threshold comes from a hit of the walk or
from the fall-through. -/
theorem isosurface_some_cases {g : CubeFile} {p v : ℚ} (hp : p < 100)
    (hv : g.isosurface_threshold_value p = some v) :
    accWalk (g.target_sum p) 0 (sortedDescending g.data) = some v ∨
      (accWalk (g.target_sum p) 0 (sortedDescending g.data) = none ∧
        (sortedDescending g.data).head? = some v) := by
  rw [CubeFile.isosurface_threshold_value, if_neg (not_le.mpr hp)] at hv
  cases hw : accWalk (g.target_sum p) 0 (sortedDescending g.data) with
  | none =>
    rw [hw, getLast_insertionSort_eq_head] at hv
    exact Or.inr ⟨rfl, hv⟩
  | some w =>
    rw [hw] at hv
    exact Or.inl hv

/-- With a non-negative total and coverage below 100%, the target is at most the
total, so the walk always hits. -/
theorem walk_hits_of_nonneg_sum (g : CubeFile) (p : ℚ) (hp : p < 100)
    (hS : 0 ≤ g.summed_data) (hne : g.data ≠ []) :
    accWalk (g.target_sum p) 0 (sortedDescending g.data) ≠ none := by
  intro hnone
  rw [accWalk_eq_none_iff] at hnone
  have hlen : 0 < (sortedDescending g.data).length := by
    rw [sortedDescending_length]
    exact List.length_pos.mpr hne
  have hlast := hnone ((sortedDescending g.data).length - 1) (by omega)
  rw [Nat.sub_add_cancel hlen, List.take_length, sortedDescending_sum] at hlast
  have htr : g.summed_data * p ≤ g.summed_data * 100 :=
    mul_le_mul_of_nonneg_left (le_of_lt hp) hS
  rw [CubeFile.target_sum] at hlast
  have hsum : g.summed_data = g.data.sum := rfl
  linarith

/-- With a non-positive total and coverage in `[0,100)`, the threshold is the
largest data value: either the first step of the walk already reaches the
non-positive target, or no step ever does and the fall-through fires. -/
theorem isosurface_nonpos_sum (g : CubeFile) (p : ℚ) (hS : g.summed_data ≤ 0)
    (hp0 : 0 ≤ p) (hp : p < 100) (hne : g.data ≠ []) :
    g.isosurface_threshold_value p = g.data.max? := by
  have ht : g.target_sum p ≤ 0 := by
    rw [CubeFile.target_sum]
    have h1 : g.summed_data * p ≤ 0 := mul_nonpos_iff.mpr (Or.inr ⟨hS, hp0⟩)
    linarith
  obtain ⟨h, tl, he⟩ : ∃ h tl, sortedDescending g.data = h :: tl := by
    cases hsd : sortedDescending g.data with
    | nil =>
      exfalso
      have hlen := sortedDescending_length g.data
      rw [hsd] at hlen
      exact hne (List.eq_nil_of_length_eq_zero hlen.symm)
    | cons h tl => exact ⟨h, tl, rfl⟩
  have hmax := sortedDescending_head_max he
  by_cases hcase : g.target_sum p ≤ 0 + h
  · have hwalk : accWalk (g.target_sum p) 0 (sortedDescending g.data) = some h := by
      rw [he, accWalk, if_pos hcase]
    rw [isosurface_eq_of_walk_some hp hwalk, hmax]
  · push_neg at hcase
    have hh : h < 0 := by linarith
    have htl : ∀ x ∈ tl, x < 0 := by
      intro x hx
      have hs := sortedDescending_sorted g.data
      rw [he] at hs
      have := List.rel_of_sorted_cons hs x hx
      linarith
    have hwalk : accWalk (g.target_sum p) 0 (sortedDescending g.data) = none := by
      rw [he, accWalk, if_neg (not_le.mpr hcase)]
      exact accWalk_none_of_neg _ tl (0 + h) hcase htl
    rw [isosurface_eq_of_walk_none hp hwalk, he, List.head?_cons, hmax]

/-! ### Claim theorems (analyzer) -/

/-- C2: for every grid, `abs_summed_data` returns exactly the same value as
`summed_data` — the plain signed sum, not the sum of absolute values: the source
defect is preserved. -/
theorem C2_abs_summed_data_eq_summed_data (g : CubeFile) :
    g.abs_summed_data = g.summed_data := rfl

/-- C6: for every successfully parsed grid and every coverage in `[0,100)`, a
returned threshold is an element of the original data sequence. -/
theorem C6_threshold_membership (input : List (List Token)) (g : CubeFile)
    (p v : ℚ) (hg : load_from input = .ok g) (hp0 : 0 ≤ p) (hp : p < 100)
    (hv : g.isosurface_threshold_value p = some v) : v ∈ g.data := by
  rcases isosurface_some_cases hp hv with hw | ⟨_, hh⟩
  · exact (sortedDescending_perm g.data).subset (accWalk_mem _ _ 0 v hw)
  · exact (sortedDescending_perm g.data).subset (mem_of_head?_eq hh)

/-- Witness for C6 at the concrete 1×1×2 grid with coverage 50. -/
theorem C6_threshold_membership_witness :
    (0 : ℚ) ≤ 50 ∧ (50 : ℚ) < 100 ∧ (3 : ℚ) ∈ exampleGrid.data :=
  ⟨by norm_num, by norm_num,
    C6_threshold_membership exampleInput exampleGrid 50 3 rfl (by norm_num)
      (by norm_num)
      (by norm_num [CubeFile.isosurface_threshold_value, CubeFile.target_sum,
        CubeFile.summed_data, exampleGrid, sortedDescending, accWalk,
        List.insertionSort, List.orderedInsert])⟩

/-- C10: on a parsed grid with non-empty data and non-positive total sum, the
threshold for any coverage in `[0,100)` is the maximum data value. -/
theorem C10_nonpositive_sum_yields_max (input : List (List Token)) (g : CubeFile)
    (p : ℚ) (hg : load_from input = .ok g) (hne : g.data ≠ [])
    (hS : g.summed_data ≤ 0) (hp0 : 0 ≤ p) (hp : p < 100) :
    g.isosurface_threshold_value p = g.max_value :=
  isosurface_nonpos_sum g p hS hp0 hp hne

/-- Witness for C10 at the concrete all-negative 1×1×2 grid with coverage 50. -/
theorem C10_nonpositive_sum_yields_max_witness :
    negativeGrid.data ≠ [] ∧ negativeGrid.summed_data ≤ 0 ∧ (0 : ℚ) ≤ 50 ∧
      (50 : ℚ) < 100 ∧
      negativeGrid.isosurface_threshold_value 50 = negativeGrid.max_value :=
  ⟨by simp [negativeGrid], by norm_num [CubeFile.summed_data, negativeGrid],
    by norm_num, by norm_num,
    C10_nonpositive_sum_yields_max negativeInput negativeGrid 50 rfl
      (by simp [negativeGrid])
      (by norm_num [CubeFile.summed_data, negativeGrid]) (by norm_num)
      (by norm_num)⟩

/-- C9: all analyzer outputs on the concrete 1×1×2 grid of spec §8 with data
`[1.0, 3.0]`: the extrema, sum, volume, integral, and the isosurface thresholds
at coverage 50 and 100. -/
theorem C9_concrete_scenario :
    load_from exampleInput = .ok exampleGrid ∧
      exampleGrid.min_value = some 1 ∧
      exampleGrid.max_value = some 3 ∧
      exampleGrid.summed_data = 4 ∧
      exampleGrid.volume = 1 ∧
      exampleGrid.integrate = 4 ∧
      exampleGrid.isosurface_threshold_value 50 = some 3 ∧
      exampleGrid.isosurface_threshold_value 100 = some 0 := by
  refine ⟨rfl, ?_, ?_, ?_, ?_, ?_, ?_, ?_⟩
  · norm_num [CubeFile.min_value, exampleGrid, List.min?, List.foldl, min_def]
  · norm_num [CubeFile.max_value, exampleGrid, List.max?, List.foldl, max_def]
  · norm_num [CubeFile.summed_data, exampleGrid]
  · norm_num [CubeFile.volume, normSq, exampleGrid, Real.sqrt_one]
  · norm_num [CubeFile.integrate, CubeFile.volume, CubeFile.summed_data, normSq,
      exampleGrid, Real.sqrt_one]
  · norm_num [CubeFile.isosurface_threshold_value, CubeFile.target_sum,
      CubeFile.summed_data, exampleGrid, sortedDescending, accWalk,
      List.insertionSort, List.orderedInsert]
  · norm_num [CubeFile.isosurface_threshold_value]

/-- C5: for a fixed parsed grid, a higher coverage (still below 100) yields a
lower or equal threshold.  Coverage percentages live in the spec's domain
`[0, 100)`. -/
theorem C5_threshold_monotone (input : List (List Token)) (g : CubeFile)
    (p1 p2 v1 v2 : ℚ) (hg : load_from input = .ok g) (hp21 : p2 ≤ p1)
    (hp20 : 0 ≤ p2) (hp1 : p1 < 100) (hp2 : p2 < 100)
    (hv1 : g.isosurface_threshold_value p1 = some v1)
    (hv2 : g.isosurface_threshold_value p2 = some v2) : v1 ≤ v2 := by
  have hne : g.data ≠ [] := by
    intro hnil
    have hsd : sortedDescending g.data = [] := by rw [hnil]; rfl
    rcases isosurface_some_cases hp1 hv1 with hw | ⟨_, hh⟩
    · rw [hsd] at hw
      simp [accWalk] at hw
    · rw [hsd] at hh
      simp at hh
  rcases le_or_lt g.summed_data 0 with hS | hS
  · have h1 := isosurface_nonpos_sum g p1 hS (le_trans hp20 hp21) hp1 hne
    have h2 := isosurface_nonpos_sum g p2 hS hp20 hp2 hne
    rw [h1] at hv1
    rw [h2] at hv2
    have h12 := hv1.symm.trans hv2
    injection h12 with h12
    exact le_of_eq h12
  · have hS' : 0 ≤ g.summed_data := le_of_lt hS
    have ht21 : g.target_sum p2 ≤ g.target_sum p1 := by
      rw [CubeFile.target_sum, CubeFile.target_sum]
      have := mul_le_mul_of_nonneg_left hp21 hS'
      linarith
    have hw1 : accWalk (g.target_sum p1) 0 (sortedDescending g.data) = some v1 := by
      rcases isosurface_some_cases hp1 hv1 with hw | ⟨hwn, _⟩
      · exact hw
      · exact absurd hwn (walk_hits_of_nonneg_sum g p1 hp1 hS' hne)
    have hw2 : accWalk (g.target_sum p2) 0 (sortedDescending g.data) = some v2 := by
      rcases isosurface_some_cases hp2 hv2 with hw | ⟨hwn, _⟩
      · exact hw
      · exact absurd hwn (walk_hits_of_nonneg_sum g p2 hp2 hS' hne)
    rw [accWalk_eq_some_iff] at hw1 hw2
    obtain ⟨k1, hk1, hv1e, hge1, hlt1⟩ := hw1
    obtain ⟨k2, hk2, hv2e, hge2, hlt2⟩ := hw2
    have hk21 : k2 ≤ k1 := by
      by_contra hcon
      push_neg at hcon
      have hmiss := hlt2 k1 hcon
      linarith
    have hsorted := sortedDescending_sorted g.data
    have hrel := hsorted.rel_get_of_le
      (Fin.mk_le_mk.mpr hk21 :
        (⟨k2, hk2⟩ : Fin (sortedDescending g.data).length) ≤ ⟨k1, hk1⟩)
    rw [hv1e, hv2e]
    exact hrel

/-- Witness for C5 at the concrete 1×1×2 grid with coverages 60 and 50. -/
theorem C5_threshold_monotone_witness :
    ((50 : ℚ) ≤ 60 ∧ (0 : ℚ) ≤ 50 ∧ (60 : ℚ) < 100 ∧ (50 : ℚ) < 100) ∧
      (3 : ℚ) ≤ 3 :=
  ⟨by norm_num,
    C5_threshold_monotone exampleInput exampleGrid 60 50 3 3 rfl (by norm_num)
      (by norm_num) (by norm_num) (by norm_num)
      (by norm_num [CubeFile.isosurface_threshold_value, CubeFile.target_sum,
        CubeFile.summed_data, exampleGrid, sortedDescending, accWalk,
        List.insertionSort, List.orderedInsert])
      (by norm_num [CubeFile.isosurface_threshold_value, CubeFile.target_sum,
        CubeFile.summed_data, exampleGrid, sortedDescending, accWalk,
        List.insertionSort, List.orderedInsert])⟩

/-- C1 (counterexample): on the parsed 1×1×2 grid with data `[3, 1]` at coverage
50, the code returns `3`, but `3` is not the smallest data value whose
super-level set carries the target sum — `1` is a smaller data value that also
does (its super-level set is the whole grid, summing to 4 ≥ 2). -/
theorem C1_counterexample :
    load_from mixedInput = .ok mixedGrid ∧
      mixedGrid.isosurface_threshold_value 50 = some 3 ∧
      ¬ IsSmallestCovering mixedGrid 50 3 := by
  refine ⟨rfl, ?_, ?_⟩
  · norm_num [CubeFile.isosurface_threshold_value, CubeFile.target_sum,
      CubeFile.summed_data, mixedGrid, sortedDescending, accWalk,
      List.insertionSort, List.orderedInsert]
  · intro hsc
    obtain ⟨-, -, hmin⟩ := hsc
    have hcov : mixedGrid.target_sum 50 ≤ mixedGrid.coveredSum 1 := by
      norm_num [CubeFile.target_sum, CubeFile.coveredSum, CubeFile.summed_data,
        mixedGrid, List.filter_cons, decide_eq_true_eq]
    have h1 : (3 : ℚ) ≤ 1 := hmin 1 (by norm_num [mixedGrid]) hcov
    norm_num at h1

/-- C1 (amended): for a parsed grid and coverage in `[0,100)`, the returned
threshold sits at the first position of the descending sort whose running
(prefix) sum reaches the target; if no prefix sum ever reaches the target, it
is the head of the descending sort, i.e. the largest value. -/
theorem C1_threshold_first_hit (input : List (List Token)) (g : CubeFile)
    (p v : ℚ) (hg : load_from input = .ok g) (hp0 : 0 ≤ p) (hp : p < 100)
    (hv : g.isosurface_threshold_value p = some v) :
    (∃ k, ∃ hk : k < (sortedDescending g.data).length,
        v = (sortedDescending g.data).get ⟨k, hk⟩ ∧
        g.target_sum p ≤ ((sortedDescending g.data).take (k + 1)).sum ∧
        ∀ j, j < k →
          ((sortedDescending g.data).take (j + 1)).sum < g.target_sum p) ∨
      ((∀ k, k < (sortedDescending g.data).length →
          ((sortedDescending g.data).take (k + 1)).sum < g.target_sum p) ∧
        (sortedDescending g.data).head? = some v) := by
  rcases isosurface_some_cases hp hv with hw | ⟨hwn, hh⟩
  · left
    rw [accWalk_eq_some_iff] at hw
    obtain ⟨k, hk, he, hge, hlt⟩ := hw
    rw [zero_add] at hge
    refine ⟨k, hk, he, hge, fun j hj => ?_⟩
    have := hlt j hj
    rwa [zero_add] at this
  · right
    refine ⟨fun k hk => ?_, hh⟩
    rw [accWalk_eq_none_iff] at hwn
    have := hwn k hk
    rwa [zero_add] at this

/-- Witness for the amended C1 at the concrete 1×1×2 grid with coverage 50. -/
theorem C1_threshold_first_hit_witness :
    (∃ k, ∃ hk : k < (sortedDescending exampleGrid.data).length,
        (3 : ℚ) = (sortedDescending exampleGrid.data).get ⟨k, hk⟩ ∧
        exampleGrid.target_sum 50 ≤
          ((sortedDescending exampleGrid.data).take (k + 1)).sum ∧
        ∀ j, j < k →
          ((sortedDescending exampleGrid.data).take (j + 1)).sum <
            exampleGrid.target_sum 50) ∨
      ((∀ k, k < (sortedDescending exampleGrid.data).length →
          ((sortedDescending exampleGrid.data).take (k + 1)).sum <
            exampleGrid.target_sum 50) ∧
        (sortedDescending exampleGrid.data).head? = some 3) :=
  C1_threshold_first_hit exampleInput exampleGrid 50 3 rfl (by norm_num)
    (by norm_num)
    (by norm_num [CubeFile.isosurface_threshold_value, CubeFile.target_sum,
      CubeFile.summed_data, exampleGrid, sortedDescending, accWalk,
      List.insertionSort, List.orderedInsert])

/-! ### Parser-level plumbing -/

theorem exceptBind_ok {α β : Type} (a : α) (f : α → Except CubeError β) :
    (Except.ok a >>= f) = f a := rfl

theorem exceptBind_error {α β : Type} (e : CubeError)
    (f : α → Except CubeError β) :
    ((Except.error e : Except CubeError α) >>= f) = Except.error e := rfl

/-- The numpy text scanner reads a run of numeric tokens completely and stops at
a following non-numeric token, dropping it and everything after it. -/
theorem fromstringFloats_append_bad (good junk : List Token)
    (hgood : ∀ t ∈ good, (t.toFloat?).isSome) :
    fromstringFloats (good ++ Token.tBad :: junk) = tokenFloats good := by
  induction good with
  | nil => simp [fromstringFloats, tokenFloats, Token.toFloat?]
  | cons t ts ih =>
    have ht := hgood t (List.mem_cons_self t ts)
    obtain ⟨q, hq⟩ := Option.isSome_iff_exists.mp ht
    rw [List.cons_append, fromstringFloats, hq, tokenFloats, List.filterMap_cons,
      hq, ih (fun x hx => hgood x (List.mem_cons_of_mem t hx))]
    rfl

/-- A run of numeric tokens yields one float per token. -/
theorem tokenFloats_length (good : List Token)
    (hgood : ∀ t ∈ good, (t.toFloat?).isSome) :
    (tokenFloats good).length = good.length := by
  induction good with
  | nil => rfl
  | cons t ts ih =>
    have ht := hgood t (List.mem_cons_self t ts)
    obtain ⟨q, hq⟩ := Option.isSome_iff_exists.mp ht
    rw [tokenFloats, List.filterMap_cons, hq]
    simpa [tokenFloats] using ih (fun x hx => hgood x (List.mem_cons_of_mem t hx))

/-! ### Claim theorems (parser) -/

/-- C3 (counterexample): the input declaring `NVAL = 0` parses successfully to a
grid with an empty data sequence, on which the analyzer operations `np.min` and
the threshold computation do have error conditions (modelled as `none`). -/
theorem C3_counterexample :
    load_from emptyDataInput = .ok emptyDataGrid ∧ emptyDataGrid.data = [] ∧
      emptyDataGrid.min_value = none ∧
      emptyDataGrid.isosurface_threshold_value 90 = none := by
  refine ⟨rfl, rfl, rfl, ?_⟩
  norm_num [CubeFile.isosurface_threshold_value, sortedDescending, accWalk,
    emptyDataGrid, List.insertionSort]

/-- C3 (amended): a successful parse guarantees that the data length equals the
declared point-count product, and the data is non-empty whenever the declared
counts are all positive; the parser itself never checks positivity. -/
theorem C3_parse_shape (input : List (List Token)) (g : CubeFile)
    (hg : load_from input = .ok g) :
    (g.data.length : ℤ) = g.toCubeHeader.expectedCount ∧
      (1 ≤ g.x_grid_points → 1 ≤ g.y_grid_points → 1 ≤ g.z_grid_points →
        1 ≤ g.data_points_per_grid_point → g.data ≠ []) := by
  rw [load_from] at hg
  cases hh : parseHeaderLines input with
  | error e => rw [hh, exceptBind_error] at hg; cases hg
  | ok pr =>
    obtain ⟨hdr, rest⟩ := pr
    rw [hh, exceptBind_ok] at hg
    dsimp only at hg
    by_cases hc :
        ((fromstringFloats rest.flatten).length : ℤ) = hdr.expectedCount
    · rw [if_pos hc] at hg
      injection hg with hg
      subst hg
      constructor
      · exact hc
      · intro h1 h2 h3 h4 hnil
        dsimp only at h1 h2 h3 h4 hnil
        rw [hnil] at hc
        rw [CubeHeader.expectedCount] at hc
        have hx : (0 : ℤ) < hdr.x_grid_points := by linarith
        have hy : (0 : ℤ) < hdr.y_grid_points := by linarith
        have hz : (0 : ℤ) < hdr.z_grid_points := by linarith
        have hd : (0 : ℤ) < hdr.data_points_per_grid_point := by linarith
        have hpos := mul_pos (mul_pos (mul_pos hx hy) hz) hd
        simp at hc
        rcases hc with ((h | h) | h) | h <;> omega
    · rw [if_neg hc] at hg
      cases hg

/-- Witness for the amended C3 at the concrete 1×1×2 grid. -/
theorem C3_parse_shape_witness :
    (exampleGrid.data.length : ℤ) = exampleGrid.toCubeHeader.expectedCount ∧
      (1 ≤ exampleGrid.x_grid_points → 1 ≤ exampleGrid.y_grid_points →
        1 ≤ exampleGrid.z_grid_points →
        1 ≤ exampleGrid.data_points_per_grid_point → exampleGrid.data ≠ []) :=
  C3_parse_shape exampleInput exampleGrid rfl

/-- C4 (counterexample): an input carrying a non-numeric token in its data
section parses successfully — the scanner drops the malformed token because the
values before it already match the declared count. -/
theorem C4_counterexample :
    Token.tBad ∈ malformedTailInput.flatten ∧
      load_from malformedTailInput = .ok malformedTailGrid := by
  refine ⟨?_, rfl⟩
  simp [malformedTailInput]

/-- C4 (amended): a malformed token in the bulk data section stops the scanner;
the parse then succeeds — silently dropping the malformed token and everything
after it — exactly when the count of numeric values before it equals the
declared product, and otherwise fails with the (length-mismatch) structural
error.  Malformed tokens in the data section are therefore not themselves
detected. -/
theorem C4_malformed_data_token (input : List (List Token)) (hdr : CubeHeader)
    (rest : List (List Token)) (good junk : List Token)
    (hh : parseHeaderLines input = .ok (hdr, rest))
    (hsplit : rest.flatten = good ++ Token.tBad :: junk)
    (hgood : ∀ t ∈ good, (t.toFloat?).isSome) :
    (load_from input = .ok ⟨hdr, tokenFloats good⟩ ↔
      (good.length : ℤ) = hdr.expectedCount) ∧
      ((good.length : ℤ) ≠ hdr.expectedCount →
        load_from input = .error .structuralError) := by
  have hd : fromstringFloats rest.flatten = tokenFloats good := by
    rw [hsplit]
    exact fromstringFloats_append_bad good junk hgood
  have hlen : ((fromstringFloats rest.flatten).length : ℤ) = (good.length : ℤ) := by
    rw [hd, tokenFloats_length good hgood]
  rw [load_from, hh, exceptBind_ok]
  dsimp only
  by_cases hc : ((fromstringFloats rest.flatten).length : ℤ) = hdr.expectedCount
  · rw [if_pos hc]
    refine ⟨⟨fun _ => hlen.symm.trans hc, fun _ => ?_⟩,
      fun hne => absurd (hlen.symm.trans hc) hne⟩
    rw [show (pure ⟨hdr, fromstringFloats rest.flatten⟩ :
        Except CubeError CubeFile) = .ok ⟨hdr, fromstringFloats rest.flatten⟩
        from rfl, hd]
  · rw [if_neg hc]
    refine ⟨⟨fun habs => ?_, fun hgl => absurd (hlen.trans hgl) hc⟩, fun _ => rfl⟩
    cases habs

/-- Witness for the amended C4 at the concrete input with data `1.0` followed by
a malformed token. -/
theorem C4_malformed_data_token_witness :
    (load_from malformedTailInput =
        .ok ⟨malformedTailGrid.toCubeHeader, tokenFloats [Token.tFloat 1]⟩ ↔
      (([Token.tFloat 1].length : ℕ) : ℤ) =
        malformedTailGrid.toCubeHeader.expectedCount) ∧
      ((([Token.tFloat 1].length : ℕ) : ℤ) ≠
          malformedTailGrid.toCubeHeader.expectedCount →
        load_from malformedTailInput = .error .structuralError) :=
  C4_malformed_data_token malformedTailInput malformedTailGrid.toCubeHeader
    [[Token.tFloat 1, Token.tBad]] [Token.tFloat 1] [] rfl rfl (by decide)

/-- C7: once the header has been read, the parse succeeds exactly when the
number of data values read from the remainder of the stream equals the declared
point-count product — one fewer or one extra read value fails the parse. -/
theorem C7_data_length_gate (input : List (List Token)) (hdr : CubeHeader)
    (rest : List (List Token))
    (hh : parseHeaderLines input = .ok (hdr, rest)) :
    (∃ g, load_from input = .ok g) ↔
      ((fromstringFloats rest.flatten).length : ℤ) = hdr.expectedCount := by
  rw [load_from, hh, exceptBind_ok]
  dsimp only
  by_cases hc : ((fromstringFloats rest.flatten).length : ℤ) = hdr.expectedCount
  · rw [if_pos hc]
    exact ⟨fun _ => hc, fun _ => ⟨_, rfl⟩⟩
  · rw [if_neg hc]
    refine ⟨fun hex => ?_, fun h => absurd h hc⟩
    obtain ⟨g, hgabs⟩ := hex
    cases hgabs

/-- Witness for C7 at the concrete 1×1×2 input, whose data section holds
exactly the two declared values. -/
theorem C7_data_length_gate_witness :
    (∃ g, load_from exampleInput = .ok g) ↔
      ((fromstringFloats [[Token.tFloat 1, Token.tFloat 3]].flatten).length : ℤ) =
        exampleGrid.toCubeHeader.expectedCount :=
  C7_data_length_gate exampleInput exampleGrid.toCubeHeader
    [[Token.tFloat 1, Token.tFloat 3]] rfl

/-- C8: any input whose grid-definition line (4 or 5 fields) starts with a
negative integer token fails with the distinguished unsupported-extension
(DSET_IDS) error, no matter what the remaining tokens of that line or all later
lines contain. -/
theorem C8_negative_atom_count_rejected (l1 l2 gtail : List Token)
    (rest : List (List Token)) (n : ℤ) (hn : n < 0)
    (hlen : gtail.length = 3 ∨ gtail.length = 4) :
    load_from (l1 :: l2 :: (Token.tInt n :: gtail) :: rest) =
      .error .unsupportedDSET := by
  rcases hlen with h3 | h4
  · obtain ⟨a, b, c, rfl⟩ := List.length_eq_three.mp h3
    simp only [load_from, parseHeaderLines, readLine, parseGridDefLine, intTok,
      Token.toInt?, exceptBind_ok]
    rw [if_pos hn]
    rfl
  · rcases gtail with _ | ⟨a, t2⟩
    · simp at h4
    · have h3' : t2.length = 3 := by simpa using h4
      obtain ⟨b, c, d, rfl⟩ := List.length_eq_three.mp h3'
      simp only [load_from, parseHeaderLines, readLine, parseGridDefLine, intTok,
        Token.toInt?, exceptBind_ok]
      rw [if_pos hn]
      rfl

/-- Witness for C8: a grid-definition line `-1 0 0 0` with nothing after it. -/
theorem C8_negative_atom_count_rejected_witness :
    load_from
        [[], [], [Token.tInt (-1), Token.tInt 0, Token.tInt 0, Token.tInt 0]] =
      .error .unsupportedDSET :=
  C8_negative_atom_count_rejected [] []
    [Token.tInt 0, Token.tInt 0, Token.tInt 0] [] (-1) (by norm_num)
    (Or.inl rfl)

end CubeProcessor
